import Mathlib

/-!
Verification of the score-record store and identity-validation engine of the
telegram score bot (source: src/amir.py).  Python strings are embedded as
lists of characters; fallible Python code (code paths that can raise an
uncaught exception) is embedded with Option, where none models the raised
exception.  The HMAC-SHA256 keyed hash (an external crypto primitive from
hashlib) is embedded as an arbitrary function parameter carried in the
process configuration; SQLite's scores table is embedded as a list of rows
plus the autoincrement counter, and each SQL statement as the corresponding
pure list transformation.
-/

/-- Python strings, embedded as lists of characters. -/
abbrev Str := List Char

/-- Conversion from Lean string literals to the embedding of Python strings. -/
def str (s : String) : Str := s.data

/-!  ## Unicode decimal digits

Python's regex class r"\d" (on str patterns) and the int() / float() digit
parsers accept every character of Unicode category Nd, not only ASCII.
Category Nd consists of runs of ten consecutive codepoints, one run per
script, each run holding the digit values 0..9 in order.  The table below
lists the starting codepoint of each run (Unicode 15).  -/

/-- Starting codepoints of the Unicode Nd decimal-digit runs.  The first
entry 0x30 is ASCII 0-9; 0x6F0 is the Extended Arabic-Indic (Persian)
digits. -/
def ndRangeStarts : List Nat :=
  [0x30, 0x660, 0x6F0, 0x7C0, 0x966, 0x9E6, 0xA66, 0xAE6, 0xB66, 0xBE6,
   0xC66, 0xCE6, 0xD66, 0xDE6, 0xE50, 0xED0, 0xF20, 0x1040, 0x1090, 0x17E0,
   0x1810, 0x1946, 0x19D0, 0x1A80, 0x1A90, 0x1B50, 0x1BB0, 0x1C40, 0x1C50,
   0xA620, 0xA8D0, 0xA900, 0xA9D0, 0xA9F0, 0xAA50, 0xABF0, 0xFF10,
   0x104A0, 0x10D30, 0x11066, 0x110F0, 0x11136, 0x111D0, 0x112F0, 0x11450,
   0x114D0, 0x11650, 0x116C0, 0x11730, 0x118E0, 0x11950, 0x11C50, 0x11D50,
   0x11DA0, 0x16A60, 0x16AC0, 0x16B50, 0x1D7CE, 0x1D7D8, 0x1D7E2, 0x1D7EC,
   0x1D7F6, 0x1E140, 0x1E2F0, 0x1E950, 0x1FBF0]

/-- The start of the Nd run a character belongs to, if any. -/
def ndStart? (c : Char) : Option Nat :=
  ndRangeStarts.find? (fun s => decide (s ≤ c.toNat ∧ c.toNat < s + 10))

/-- Models membership in Python's decimal-digit class: regex r"\d" on a str
pattern, and the set of single characters accepted by int(). -/
def isPyDecimalDigit (c : Char) : Bool := (ndStart? c).isSome

/-- Models int(c) for a single decimal-digit character c: its digit value. -/
def pyDigitVal (c : Char) : Nat :=
  match ndStart? c with
  | some s => c.toNat - s
  | none => 0

/-!  ## persian_to_english_number  -/

/-- The string literal of Persian digits from the source. -/
def persian_numbers : Str := str "۰۱۲۳۴۵۶۷۸۹"

/-- The string literal of English digits from the source. -/
def english_numbers : Str := str "0123456789"

/-- One entry lookup in the translation table built by str.maketrans. -/
def translateChar (c : Char) : Char :=
  match (persian_numbers.zip english_numbers).find? (fun p => p.1 = c) with
  | some p => p.2
  | none => c

/-- persian_to_english_number: translate Persian digit glyphs to ASCII,
leaving every other character unchanged (str.translate with the maketrans
table of the two digit strings). -/
def persian_to_english_number (text : Str) : Str := text.map translateChar

/-!  ## Python string helpers used by the handlers  -/

/-- Models the Python whitespace test used by str.strip, str.splitlines and
the regex class backslash-s (ASCII part; the rare non-ASCII Unicode spaces
are outside the model). -/
def pyIsSpace (c : Char) : Bool :=
  c.isWhitespace || c = Char.ofNat 11 || c = Char.ofNat 12

/-- str.strip(): remove leading and trailing whitespace. -/
def pyStrip (s : Str) : Str :=
  ((s.dropWhile pyIsSpace).reverse.dropWhile pyIsSpace).reverse

/-- str.lower() (ASCII case folding; the subjects handled by the bot are
ASCII or caseless Persian script, on which this coincides with Python). -/
def pyLower (s : Str) : Str := s.map Char.toLower

/-- A separator character of SPLIT_RE, the regex [|:\s]+ . -/
def isSep (c : Char) : Bool := c = '|' || c = ':' || pyIsSpace c

/-- Accumulator pass splitting a string into maximal nonempty runs of
non-separator characters; cur holds the current run, reversed. -/
def tokenizeGo (cur : Str) : Str → List Str
  | [] => if cur.isEmpty then [] else [cur.reverse]
  | c :: rest =>
    if isSep c then
      if cur.isEmpty then tokenizeGo [] rest
      else cur.reverse :: tokenizeGo [] rest
    else tokenizeGo (c :: cur) rest

/-- Models [p.strip() for p in SPLIT_RE.split(s) if p.strip()] : the list of
maximal nonempty runs of non-separator characters.  (Each piece produced by
re.split contains no whitespace, so the per-piece strip is the identity and
the filter drops exactly the empty pieces.) -/
def tokenize (s : Str) : List Str := tokenizeGo [] s

/-- text.partition(sep)[2] for a one-character separator: everything after
the first occurrence of the separator (empty if it does not occur). -/
def afterFirst (sep : Char) : Str → Str
  | [] => []
  | c :: rest => if c = sep then rest else afterFirst sep rest

/-- ' '.join(parts). -/
def joinWords (parts : List Str) : Str := List.intercalate (str " ") parts

/-- str.splitlines(), for the line boundaries LF, CR and CRLF. -/
def splitlinesGo (acc : Str) : Str → List Str
  | [] => [acc.reverse]
  | '\r' :: '\n' :: rest2 =>
    acc.reverse :: (if rest2.isEmpty then [] else splitlinesGo [] rest2)
  | c :: rest =>
    if c = '\r' || c = '\n' then
      acc.reverse :: (if rest.isEmpty then [] else splitlinesGo [] rest)
    else splitlinesGo (c :: acc) rest

/-- str.splitlines() on the whole string (empty string gives no lines). -/
def pySplitlines (s : Str) : List Str :=
  match s with
  | [] => []
  | _ => splitlinesGo [] s

/-!  ## valid_iranian_national_code

NATIONAL_CODE_RE is re.compile of "^" ++ backslash-d ++ "{10}$".  Two pieces
of Python semantics matter here: the digit class matches any Unicode decimal
digit, and the dollar anchor also matches just before a single trailing
newline.  Hence the regex accepts (a) exactly ten decimal digits, and (b)
ten decimal digits followed by one newline.  In case (b) the later
list(map(int, code)) raises ValueError on the newline character, which the
function does not catch; this is modeled by the none result. -/

/-- Truthiness of NATIONAL_CODE_RE.match(s). -/
def nationalCodeReMatch (s : Str) : Bool :=
  (s.length = 10 && s.all isPyDecimalDigit) ||
  (s.length = 11 && (s.take 10).all isPyDecimalDigit && s.getLastD ' ' = '\n')

/-- The mod-11 weighted checksum decision taken on the digit values:
s = sum of digits[i]*(10-i) for i < 9, r = s mod 11, check = digits[9];
the result is check == r when r < 2, else check == 11 - r. -/
def checksumOk (digits : List Nat) : Bool :=
  let s := ((List.range 9).map (fun i => digits.getD i 0 * (10 - i))).sum
  let r := s % 11
  let check := digits.getD 9 0
  if r < 2 then check = r else check = 11 - r

/-- valid_iranian_national_code.  some b is a returned boolean; none is the
uncaught ValueError raised by int() when the regex accepted ten digits plus
a trailing newline. -/
def valid_iranian_national_code (code : Str) : Option Bool :=
  if !nationalCodeReMatch code then some false
  else if code.dedup.length = 1 then some false
  else if !code.all isPyDecimalDigit then none
  else some (checksumOk (code.map pyDigitVal))

/-!  ## Python float() string parsing

Models the grammar accepted by builtin float() on strings: surrounding
whitespace stripped, an optional sign, then a case-insensitive "inf",
"infinity" or "nan", or a decimal literal digits[.digits][(e|E)[sign]digits]
with at least one mantissa digit.  Unicode decimal digits are accepted (the
interpreter transforms them to ASCII first); digit-group underscores are
outside the model.  Finite results carry the exact decimal value as a
rational; Python's rounding to binary (and its overflow to infinity for
huge literals) does not affect acceptance and is not modeled. -/

/-- The value a Python float() call yields, with the exact decimal value
standing in for the rounded binary one. -/
inductive PyFloat where
  | finite (q : ℚ) : PyFloat
  | inf : PyFloat
  | neginf : PyFloat
  | nan : PyFloat
deriving DecidableEq, Repr

/-- Maximal leading run of decimal digits, as digit values plus the rest. -/
def takeDigits (s : Str) : List Nat × Str :=
  ((s.takeWhile isPyDecimalDigit).map pyDigitVal, s.dropWhile isPyDecimalDigit)

/-- Digit list to natural number, most significant first. -/
def digitsToNat (ds : List Nat) : Nat := ds.foldl (fun a d => a * 10 + d) 0

/-- Case-insensitive comparison against an ASCII keyword. -/
def kwEq (s : Str) (kw : Str) : Bool := pyLower s = kw

/-- The mantissa and exponent assembled into an exact rational, built
from integer arithmetic and mkRat so that it evaluates by computation. -/
def decimalValue (sign : Int) (ip fp : List Nat) (ex : Int) : ℚ :=
  let mant : Int := sign * ((digitsToNat ip : Int) * (10 : Int) ^ fp.length + (digitsToNat fp : Int))
  match ex with
  | Int.ofNat e => mkRat (mant * (10 : Int) ^ e) ((10 : Nat) ^ fp.length)
  | Int.negSucc e => mkRat mant ((10 : Nat) ^ fp.length * (10 : Nat) ^ (e + 1))

/-- float(s) for a string s: some value, or none for the ValueError. -/
def pyfloat (s : Str) : Option PyFloat :=
  let t0 := pyStrip s
  let signAndBody : Int × Str :=
    match t0 with
    | '+' :: r => (1, r)
    | '-' :: r => (-1, r)
    | _ => (1, t0)
  let sign := signAndBody.1
  let t := signAndBody.2
  if kwEq t (str "inf") || kwEq t (str "infinity") then
    some (if sign = 1 then PyFloat.inf else PyFloat.neginf)
  else if kwEq t (str "nan") then
    some PyFloat.nan
  else
    let ipr := takeDigits t
    let fpr : List Nat × Str :=
      match ipr.2 with
      | '.' :: r => takeDigits r
      | _ => ([], ipr.2)
    if ipr.1.isEmpty && fpr.1.isEmpty then none
    else
      match fpr.2 with
      | [] => some (PyFloat.finite (decimalValue sign ipr.1 fpr.1 0))
      | e :: r3 =>
        if e = 'e' || e = 'E' then
          let esignAndBody : Int × Str :=
            match r3 with
            | '+' :: r => (1, r)
            | '-' :: r => (-1, r)
            | _ => (1, r3)
          let edr := takeDigits esignAndBody.2
          if edr.1.isEmpty || !edr.2.isEmpty then none
          else some (PyFloat.finite
            (decimalValue sign ipr.1 fpr.1 (esignAndBody.1 * digitsToNat edr.1)))
        else none

/-!  ## The scores table and the data operations

The SQLite table scores(id autoincrement primary key, code_hmac, subject,
score, updated_at, unique(code_hmac, subject)) is embedded as the list of
its rows plus the autoincrement counter.  hmac_code (HMAC-SHA256 of the
code under the process secret, from hashlib) is an external keyed hash; the
data operations take it as the function parameter hm, exactly where the
source computes code_h = hmac_code(national_code). -/

/-- One row of the scores table. -/
structure ScoreRecord where
  id : Nat
  code_hmac : Str
  subject : Str
  score : PyFloat
  updated_at : Str
deriving DecidableEq, Repr

/-- The scores table: its rows in insertion order plus the next
autoincrement id. -/
structure Store where
  rows : List ScoreRecord
  nextId : Nat
deriving DecidableEq, Repr

/-- The empty table created by init_db (autoincrement starts at 1). -/
def emptyStore : Store := { rows := [], nextId := 1 }

/-- The WHERE clause code_hmac = ? AND subject = ? . -/
def rowMatches (code_h subj : Str) (r : ScoreRecord) : Bool :=
  r.code_hmac = code_h && r.subject = subj

/-- add_or_update_score: normalize the subject, then INSERT .. ON
CONFLICT(code_hmac, subject) DO UPDATE SET score, updated_at.  now is the
datetime.utcnow().isoformat() read. -/
def add_or_update_score (hm : Str → Str) (national_code subject : Str)
    (score : PyFloat) (now : Str) (st : Store) : Store :=
  let code_h := hm national_code
  let subj := pyLower (pyStrip subject)
  if st.rows.any (rowMatches code_h subj) then
    { st with rows := st.rows.map (fun r =>
        if rowMatches code_h subj r then
          { r with score := score, updated_at := now }
        else r) }
  else
    { rows := st.rows ++
        [{ id := st.nextId, code_hmac := code_h, subject := subj,
           score := score, updated_at := now }],
      nextId := st.nextId + 1 }

/-- remove_score: DELETE WHERE code_hmac = ? AND subject = ?; the boolean
is cur.rowcount > 0. -/
def remove_score (hm : Str → Str) (national_code subject : Str)
    (st : Store) : Store × Bool :=
  let code_h := hm national_code
  let subj := pyLower (pyStrip subject)
  let kept := st.rows.filter (fun r => !rowMatches code_h subj r)
  ({ st with rows := kept }, st.rows.length - kept.length > 0)

/-- remove_all_scores: DELETE WHERE code_hmac = ?; returns cur.rowcount. -/
def remove_all_scores (hm : Str → Str) (national_code : Str)
    (st : Store) : Store × Nat :=
  let code_h := hm national_code
  let kept := st.rows.filter (fun r => !(r.code_hmac = code_h : Bool))
  ({ st with rows := kept }, st.rows.length - kept.length)

/-- lookup_subject: SELECT subject, score, updated_at WHERE code_hmac = ?
AND subject = ? followed by fetchone (under the UNIQUE constraint at most
one row matches, so the first match is the answer). -/
def lookup_subject (hm : Str → Str) (national_code subject : Str)
    (st : Store) : Option (Str × PyFloat × Str) :=
  let code_h := hm national_code
  let subj := pyLower (pyStrip subject)
  (st.rows.find? (rowMatches code_h subj)).map
    (fun r => (r.subject, r.score, r.updated_at))

/-- The query SELECT DISTINCT code_hmac FROM scores LIMIT 200 run by
list_codes_cmd: the distinct key values, capped at 200. -/
def select_distinct_codes (st : Store) : List Str :=
  ((st.rows.map (fun r => r.code_hmac)).dedup).take 200

/-!  ## Telegram handlers

The handlers read the process configuration: the ADMINS id set and the
pseudonymization hash.  A handler result is the final store plus the reply
sent; handler code paths that can raise an uncaught exception are wrapped
in Option (none = the handler died without replying). -/

/-- Process-wide configuration: the ADMINS allow-list and the keyed hash
hmac_code determined by HMAC_SECRET. -/
structure Config where
  admins : List Int
  hmacFn : Str → Str

/-- is_admin: membership of the caller id in ADMINS. -/
def is_admin (admins : List Int) (user_id : Int) : Bool :=
  admins.contains user_id

/-- The per-row result line appended by the bulk loops, tagged by branch:
format error, invalid national code, unparsable score, or registered. -/
inductive RowOutcome where
  | badFormat (line : Str) : RowOutcome
  | invalidCode (code : Str) : RowOutcome
  | notNumber (code subject : Str) : RowOutcome
  | registered (code subject : Str) : RowOutcome
deriving DecidableEq, Repr

/-- The reply a handler sends, tagged by the branch that produced it (the
source sends a fixed Persian message per branch, with the shown payload
interpolated). -/
inductive Reply where
  | notAdmin : Reply
  | usage : Reply
  | badFormat : Reply
  | invalidCode : Reply
  | notNumber : Reply
  | added (code subject : Str) : Reply
  | removed (code subject : Str) : Reply
  | notFound : Reply
  | removedCount (n : Nat) : Reply
  | noData : Reply
  | codesList (keys : List Str) : Reply
  | bulkReport (outcomes : List RowOutcome) : Reply
  | fileReport (outcomes : List RowOutcome) : Reply
  | fileError : Reply
deriving DecidableEq, Repr

/-!  ## Bulk loops

One iteration of the add_bulk_cmd loop over the lines of the payload, and
one iteration of the add_file_cmd loop over the extracted rows.  A file row
is the triple (str(row[0]), str(row[1]), str(row[2])) of raw field values
yielded by the spreadsheet/CSV extraction.  A step result of none models an
uncaught exception in the loop body (the ValueError from
valid_iranian_national_code on a ten-digit-plus-newline code field). -/

/-- One iteration of the add_bulk_cmd loop body on one payload line. -/
def bulk_step (cfg : Config) (now : Str) (st : Store) (line : Str) :
    Option (Store × RowOutcome) :=
  let parts := tokenize line
  if parts.length < 3 then some (st, RowOutcome.badFormat line)
  else
    let code := persian_to_english_number (parts.headD [])
    let subject := joinWords ((parts.drop 1).dropLast)
    let score_s := persian_to_english_number (parts.getLastD [])
    match valid_iranian_national_code code with
    | none => none
    | some false => some (st, RowOutcome.invalidCode code)
    | some true =>
      match pyfloat score_s with
      | none => some (st, RowOutcome.notNumber code subject)
      | some v =>
        some (add_or_update_score cfg.hmacFn code subject v now st,
          RowOutcome.registered code subject)

/-- The add_bulk_cmd loop: rows in order, threading the store.  The second
component is the collected result lines, or none if an iteration raised;
in that case the store already holds the writes of the earlier rows (each
was committed by its own transaction) and all result lines are lost. -/
def bulk_run (cfg : Config) (now : Str) :
    Store → List Str → Store × Option (List RowOutcome)
  | st, [] => (st, some [])
  | st, l :: ls =>
    match bulk_step cfg now st l with
    | none => (st, none)
    | some (st1, o) =>
      let rest := bulk_run cfg now st1 ls
      (rest.1, rest.2.map (fun os => o :: os))

/-- One iteration of the add_file_cmd loop body on one extracted row. -/
def file_step (cfg : Config) (now : Str) (st : Store)
    (row : Str × Str × Str) : Option (Store × RowOutcome) :=
  let code := persian_to_english_number row.1
  let subject := row.2.1
  let score_s := persian_to_english_number row.2.2
  match valid_iranian_national_code code with
  | none => none
  | some false => some (st, RowOutcome.invalidCode code)
  | some true =>
    match pyfloat score_s with
    | none => some (st, RowOutcome.notNumber code subject)
    | some v =>
      some (add_or_update_score cfg.hmacFn code subject v now st,
        RowOutcome.registered code subject)

/-- The add_file_cmd loop over the extracted rows; none in the second
component is the exception that the surrounding try/except turns into the
single file-level error reply, discarding the per-row lines while the
already committed writes remain. -/
def file_run (cfg : Config) (now : Str) :
    Store → List (Str × Str × Str) → Store × Option (List RowOutcome)
  | st, [] => (st, some [])
  | st, r :: rs =>
    match file_step cfg now st r with
    | none => (st, none)
    | some (st1, o) =>
      let rest := file_run cfg now st1 rs
      (rest.1, rest.2.map (fun os => o :: os))

/-!  ## Command handlers

Each handler takes the caller id and the full message text, and returns the
final store with the reply sent, or none for an uncaught exception (which
is proved unreachable for the text commands, since their code arguments
come from tokenize and cannot carry the newline that triggers it). -/

/-- add_cmd (and edit_cmd, which is the same function). -/
def add_cmd (cfg : Config) (user_id : Int) (text : Str) (now : Str)
    (st : Store) : Option (Store × Reply) :=
  if !is_admin cfg.admins user_id then some (st, Reply.notAdmin)
  else
    let payload := pyStrip (afterFirst ' ' text)
    if payload.isEmpty then some (st, Reply.usage)
    else
      let parts := tokenize payload
      if parts.length < 3 then some (st, Reply.badFormat)
      else
        let code := persian_to_english_number (parts.headD [])
        let subject := joinWords ((parts.drop 1).dropLast)
        let score_s := persian_to_english_number (parts.getLastD [])
        match valid_iranian_national_code code with
        | none => none
        | some false => some (st, Reply.invalidCode)
        | some true =>
          match pyfloat score_s with
          | none => some (st, Reply.notNumber)
          | some v =>
            some (add_or_update_score cfg.hmacFn code subject v now st,
              Reply.added code subject)

/-- remove_cmd. -/
def remove_cmd (cfg : Config) (user_id : Int) (text : Str)
    (st : Store) : Option (Store × Reply) :=
  if !is_admin cfg.admins user_id then some (st, Reply.notAdmin)
  else
    let payload := pyStrip (afterFirst ' ' text)
    let parts := tokenize payload
    if parts.length < 2 then some (st, Reply.usage)
    else
      let code := persian_to_english_number (parts.headD [])
      let subject := joinWords (parts.drop 1)
      match valid_iranian_national_code code with
      | none => none
      | some false => some (st, Reply.invalidCode)
      | some true =>
        let res := remove_score cfg.hmacFn code subject st
        some (res.1, if res.2 then Reply.removed code subject
          else Reply.notFound)

/-- remove_all_cmd. -/
def remove_all_cmd (cfg : Config) (user_id : Int) (text : Str)
    (st : Store) : Option (Store × Reply) :=
  if !is_admin cfg.admins user_id then some (st, Reply.notAdmin)
  else
    let code := persian_to_english_number (pyStrip (afterFirst ' ' text))
    match valid_iranian_national_code code with
    | none => none
    | some false => some (st, Reply.usage)
    | some true =>
      let res := remove_all_scores cfg.hmacFn code st
      some (res.1, Reply.removedCount res.2)

/-- list_codes_cmd. -/
def list_codes_cmd (cfg : Config) (user_id : Int) (st : Store) :
    Store × Reply :=
  if !is_admin cfg.admins user_id then (st, Reply.notAdmin)
  else
    let rows := select_distinct_codes st
    if rows.isEmpty then (st, Reply.noData)
    else (st, Reply.codesList rows)

/-- add_bulk_cmd. -/
def add_bulk_cmd (cfg : Config) (user_id : Int) (text : Str) (now : Str)
    (st : Store) : Option (Store × Reply) :=
  if !is_admin cfg.admins user_id then some (st, Reply.notAdmin)
  else
    let payload := pyStrip (afterFirst ' ' text)
    if payload.isEmpty then some (st, Reply.usage)
    else
      let res := bulk_run cfg now st (pySplitlines payload)
      (res.2.map (fun os => (res.1, Reply.bulkReport os)))

/-- add_file_cmd, given the rows the spreadsheet/CSV extraction yielded
(the download and pandas parsing are external; a file whose extraction
fails produces the fileError reply before any row is processed, which is
the same reply the in-loop exception produces). -/
def add_file_cmd (cfg : Config) (user_id : Int)
    (rows : List (Str × Str × Str)) (now : Str) (st : Store) :
    Store × Reply :=
  if !is_admin cfg.admins user_id then (st, Reply.notAdmin)
  else
    let res := file_run cfg now st rows
    match res.2 with
    | none => (res.1, Reply.fileError)
    | some os => (res.1, Reply.fileReport os)

/-!  ## Helper lemmas: characters, digits, tokens  -/

/-- An ASCII digit character belongs to the first Nd run. -/
theorem ndStart?_ascii (c : Char) (h1 : 48 ≤ c.toNat) (h2 : c.toNat ≤ 57) :
    ndStart? c = some 48 := by
  unfold ndStart? ndRangeStarts
  rw [List.find?_cons_of_pos]
  simp only [decide_eq_true_eq]
  omega

/-- An ASCII digit is a Python decimal digit. -/
theorem isPyDecimalDigit_ascii (c : Char) (h1 : 48 ≤ c.toNat)
    (h2 : c.toNat ≤ 57) : isPyDecimalDigit c = true := by
  simp [isPyDecimalDigit, ndStart?_ascii c h1 h2]

/-- On an ASCII digit, the Python digit value is the usual one. -/
theorem pyDigitVal_ascii (c : Char) (h1 : 48 ≤ c.toNat) (h2 : c.toNat ≤ 57) :
    pyDigitVal c = c.toNat - 48 := by
  simp [pyDigitVal, ndStart?_ascii c h1 h2]

/-- Char.isDigit gives the ASCII codepoint bounds. -/
theorem toNat_bounds_of_isDigit {c : Char} (h : c.isDigit = true) :
    48 ≤ c.toNat ∧ c.toNat ≤ 57 := by
  simp only [Char.isDigit, Bool.and_eq_true, decide_eq_true_eq] at h
  obtain ⟨h1, h2⟩ := h
  exact ⟨h1, h2⟩

/-- The length of dedup is 1 exactly when all elements are equal
(for a nonempty list): models len(set(code)) == 1. -/
theorem dedup_length_one_iff {α : Type} [DecidableEq α] :
    ∀ (l : List α), l ≠ [] → (l.dedup.length = 1 ↔ ∀ a ∈ l, ∀ b ∈ l, a = b)
  | [], h => absurd rfl h
  | [a], _ => by simp
  | a :: b :: t, _ => by
    constructor
    · intro h1 x hx y hy
      obtain ⟨z, hz⟩ := List.length_eq_one.mp h1
      have hxz : x ∈ (a :: b :: t).dedup := List.mem_dedup.mpr hx
      have hyz : y ∈ (a :: b :: t).dedup := List.mem_dedup.mpr hy
      rw [hz, List.mem_singleton] at hxz hyz
      rw [hxz, hyz]
    · intro hall
      have hab : a = b := hall a (by simp) b (by simp)
      rw [List.dedup_cons_of_mem (by rw [hab]; exact List.mem_cons_self b t)]
      exact (dedup_length_one_iff (b :: t) (by simp)).mpr
        (fun x hx y hy =>
          hall x (List.mem_cons_of_mem a hx) y (List.mem_cons_of_mem a hy))

/-- getLastD of a nonempty list is a member. -/
theorem getLastD_mem : ∀ (s : Str), s ≠ [] → ∀ (d : Char), s.getLastD d ∈ s
  | [], h => absurd rfl h
  | [a], _ => by simp
  | a :: b :: t, _ => by
    intro d
    rw [List.getLastD_cons d a (b :: t)]
    exact List.mem_cons_of_mem a (getLastD_mem (b :: t) (by simp) a)

/-- The translation table never produces a newline. -/
theorem translateChar_ne_newline (c : Char) (h : c ≠ '\n') :
    translateChar c ≠ '\n' := by
  unfold translateChar
  cases hf : (persian_numbers.zip english_numbers).find? (fun p => p.1 = c) with
  | none => exact h
  | some p =>
    have hp : p ∈ persian_numbers.zip english_numbers :=
      List.mem_of_find?_eq_some hf
    have : ∀ q ∈ persian_numbers.zip english_numbers, q.2 ≠ '\n' := by decide
    exact this p hp

/-- Digit translation cannot introduce a newline. -/
theorem newline_notin_p2e {s : Str} (h : '\n' ∉ s) :
    '\n' ∉ persian_to_english_number s := by
  unfold persian_to_english_number
  intro hmem
  obtain ⟨c, hc, hceq⟩ := List.mem_map.mp hmem
  by_cases hcn : c = '\n'
  · exact h (hcn ▸ hc)
  · exact translateChar_ne_newline c hcn hceq

/-- Every character of every token the accumulator pass produces is a
non-separator, provided the running accumulator holds none. -/
theorem tokenizeGo_no_sep :
    ∀ (s cur : Str), (∀ c ∈ cur, isSep c = false) →
      ∀ t ∈ tokenizeGo cur s, ∀ c ∈ t, isSep c = false
  | [], cur, hcur => by
    intro t ht
    unfold tokenizeGo at ht
    split at ht
    · cases ht
    · rw [List.mem_singleton] at ht
      intro c hc
      rw [ht] at hc
      exact hcur c (List.mem_reverse.mp hc)
  | x :: rest, cur, hcur => by
    intro t ht
    unfold tokenizeGo at ht
    split at ht
    next hx =>
      split at ht
      · exact tokenizeGo_no_sep rest [] (by simp) t ht
      · rcases List.mem_cons.mp ht with h1 | h2
        · intro c hc
          rw [h1] at hc
          exact hcur c (List.mem_reverse.mp hc)
        · exact tokenizeGo_no_sep rest [] (by simp) t h2
    next hx =>
      refine tokenizeGo_no_sep rest (x :: cur) ?_ t ht
      intro c hc
      rcases List.mem_cons.mp hc with h1 | h2
      · rw [h1, Bool.eq_false_iff]
        exact hx
      · exact hcur c h2

/-- Every character of every token produced by tokenize is a
non-separator (in particular, never a newline). -/
theorem tokenize_no_sep (s : Str) : ∀ t ∈ tokenize s, ∀ c ∈ t, isSep c = false :=
  tokenizeGo_no_sep s [] (by simp)

/-!  ## Helper lemmas: the validator  -/

/-- The checksum formula in the words of the specification. -/
def claimChecksum (code : Str) : Prop :=
  let d := code.map (fun c => c.toNat - 48)
  let s := ((List.range 9).map (fun i => d.getD i 0 * (10 - i))).sum
  let r := s % 11
  (r < 2 ∧ d.getD 9 0 = r) ∨ (2 ≤ r ∧ d.getD 9 0 = 11 - r)

/-- A ValueError escapes the validator only on an input containing a
newline. -/
theorem valid_eq_none_newline {s : Str}
    (h : valid_iranian_national_code s = none) : '\n' ∈ s := by
  unfold valid_iranian_national_code at h
  by_cases hm : nationalCodeReMatch s = true
  · rw [hm] at h
    simp only [Bool.not_true, Bool.false_eq_true, if_false] at h
    by_cases hd : s.dedup.length = 1
    · simp [hd] at h
    · simp only [hd, if_false] at h
      by_cases ha : s.all isPyDecimalDigit = true
      · simp [ha] at h
      · unfold nationalCodeReMatch at hm
        simp only [Bool.or_eq_true, Bool.and_eq_true, decide_eq_true_eq] at hm
        rcases hm with ⟨_, h2⟩ | ⟨⟨h1, _⟩, h3⟩
        · exact absurd h2 ha
        · have hne : s ≠ [] := by
            intro hnil; rw [hnil] at h1; simp at h1
          have := getLastD_mem s hne ' '
          rw [h3] at this
          exact this
  · rw [Bool.not_eq_true] at hm
    simp [hm] at h

/-- Validation never raises on a string without newlines. -/
theorem valid_isSome_of_no_newline {s : Str} (h : '\n' ∉ s) :
    (valid_iranian_national_code s).isSome := by
  cases hv : valid_iranian_national_code s with
  | none => exact absurd (valid_eq_none_newline hv) h
  | some b => rfl

/-- On exactly ten ASCII digits the validator returns the all-identical
test conjoined with the checksum. -/
theorem valid_ascii_eq (code : Str) (h10 : code.length = 10)
    (hd : ∀ c ∈ code, c.isDigit = true) :
    valid_iranian_national_code code =
      some (decide (∃ c ∈ code, ∃ c' ∈ code, c ≠ c') &&
        checksumOk (code.map (fun c => c.toNat - 48))) := by
  have hbounds : ∀ c ∈ code, 48 ≤ c.toNat ∧ c.toNat ≤ 57 :=
    fun c hc => toNat_bounds_of_isDigit (hd c hc)
  have hall : code.all isPyDecimalDigit = true := by
    rw [List.all_eq_true]
    exact fun c hc =>
      isPyDecimalDigit_ascii c (hbounds c hc).1 (hbounds c hc).2
  have hmatch : nationalCodeReMatch code = true := by
    unfold nationalCodeReMatch
    simp [h10, hall]
  have hne : code ≠ [] := by
    intro hnil; rw [hnil] at h10; simp at h10
  have hmapeq : code.map pyDigitVal = code.map (fun c => c.toNat - 48) :=
    List.map_congr_left
      (fun c hc => pyDigitVal_ascii c (hbounds c hc).1 (hbounds c hc).2)
  unfold valid_iranian_national_code
  rw [hmatch, hall, hmapeq]
  simp only [Bool.not_true, Bool.false_eq_true, if_false]
  by_cases hded : code.dedup.length = 1
  · rw [if_pos hded]
    have hsame : ∀ a ∈ code, ∀ b ∈ code, a = b :=
      (dedup_length_one_iff code hne).mp hded
    have : decide (∃ c ∈ code, ∃ c' ∈ code, c ≠ c') = false := by
      simp only [decide_eq_false_iff_not]
      rintro ⟨c, hc, c', hc', hne2⟩
      exact hne2 (hsame c hc c' hc')
    rw [this, Bool.false_and]
  · rw [if_neg hded]
    have : decide (∃ c ∈ code, ∃ c' ∈ code, c ≠ c') = true := by
      rw [decide_eq_true_eq]
      by_contra hno
      push_neg at hno
      exact hded ((dedup_length_one_iff code hne).mpr hno)
    rw [this, Bool.true_and]

/-- The boolean checksum agrees with the formula as the specification
words it. -/
theorem checksumOk_iff_claimChecksum (code : Str) :
    checksumOk (code.map (fun c => c.toNat - 48)) = true ↔ claimChecksum code := by
  simp only [checksumOk, claimChecksum]
  split
  next hc =>
    simp only [decide_eq_true_eq]
    constructor
    · intro h; exact Or.inl ⟨hc, h⟩
    · rintro (⟨_, h⟩ | ⟨h2, _⟩)
      · exact h
      · omega
  next hc =>
    simp only [decide_eq_true_eq]
    constructor
    · intro h; exact Or.inr ⟨by omega, h⟩
    · rintro (⟨h2, _⟩ | ⟨_, h⟩)
      · omega
      · exact h

/-- A string that matches neither accepted shape of the regex is reported
invalid. -/
theorem valid_no_match (s : Str) (h : nationalCodeReMatch s = false) :
    valid_iranian_national_code s = some false := by
  unfold valid_iranian_national_code
  rw [h]
  rfl

/-- Only exactly-ten-decimal-digit strings can validate true. -/
theorem valid_true_shape {s : Str}
    (h : valid_iranian_national_code s = some true) :
    s.length = 10 ∧ ∀ c ∈ s, isPyDecimalDigit c = true := by
  unfold valid_iranian_national_code at h
  by_cases hm : nationalCodeReMatch s = true
  · rw [hm] at h
    simp only [Bool.not_true, Bool.false_eq_true, if_false] at h
    by_cases hd : s.dedup.length = 1
    · simp [hd] at h
    · simp only [hd, if_false] at h
      by_cases ha : s.all isPyDecimalDigit = true
      · refine ⟨?_, List.all_eq_true.mp ha⟩
        unfold nationalCodeReMatch at hm
        simp only [Bool.or_eq_true, Bool.and_eq_true, decide_eq_true_eq] at hm
        rcases hm with ⟨h1, _⟩ | ⟨⟨h1, _⟩, h3⟩
        · exact h1
        · exfalso
          have hne : s ≠ [] := by
            intro hnil; rw [hnil] at h1; simp at h1
          have hmem := getLastD_mem s hne ' '
          rw [h3] at hmem
          have := List.all_eq_true.mp ha '\n' hmem
          simp [isPyDecimalDigit, ndStart?, ndRangeStarts] at this
      · simp [ha] at h
  · rw [Bool.not_eq_true] at hm
    simp [hm] at h

/-!  ## Helper lemmas: the record store  -/

/-- Two rows with the same storage key, as the UNIQUE constraint sees it. -/
def samePair (a b : ScoreRecord) : Prop :=
  a.code_hmac = b.code_hmac ∧ a.subject = b.subject

/-- The UNIQUE(code_hmac, subject) constraint of the scores table. -/
def StoreInv (st : Store) : Prop :=
  st.rows.Pairwise (fun a b => ¬ samePair a b)

/-- The in-place update of the DO UPDATE clause. -/
def doUpdate (code_h subj : Str) (v : PyFloat) (now : Str)
    (r : ScoreRecord) : ScoreRecord :=
  if rowMatches code_h subj r then { r with score := v, updated_at := now }
  else r

/-- The DO UPDATE clause changes neither key field. -/
theorem doUpdate_key (code_h subj : Str) (v : PyFloat) (now : Str)
    (r : ScoreRecord) :
    (doUpdate code_h subj v now r).code_hmac = r.code_hmac ∧
      (doUpdate code_h subj v now r).subject = r.subject := by
  unfold doUpdate
  split <;> exact ⟨rfl, rfl⟩

/-- The WHERE test is invariant under the DO UPDATE clause. -/
theorem rowMatches_doUpdate (code_h subj : Str) (v : PyFloat) (now : Str)
    (r : ScoreRecord) :
    rowMatches code_h subj (doUpdate code_h subj v now r) =
      rowMatches code_h subj r := by
  obtain ⟨h1, h2⟩ := doUpdate_key code_h subj v now r
  unfold rowMatches
  rw [h1, h2]

/-- Unfolding of add_or_update_score through doUpdate. -/
theorem add_or_update_score_eq (hm : Str → Str) (nc subj : Str)
    (v : PyFloat) (now : Str) (st : Store) :
    add_or_update_score hm nc subj v now st =
      (if st.rows.any (rowMatches (hm nc) (pyLower (pyStrip subj))) then
        { st with rows := st.rows.map (doUpdate (hm nc) (pyLower (pyStrip subj)) v now) }
      else
        { rows := st.rows ++ [{ id := st.nextId, code_hmac := hm nc, subject := pyLower (pyStrip subj), score := v, updated_at := now }], nextId := st.nextId + 1 }) := rfl

/-- A successful WHERE test fixes the key fields. -/
theorem rowMatches_iff (code_h subj : Str) (r : ScoreRecord) :
    rowMatches code_h subj r = true ↔
      r.code_hmac = code_h ∧ r.subject = subj := by
  unfold rowMatches
  simp

/-- Under the UNIQUE invariant at most one row passes the WHERE test on a
fixed key: the filter keeps at most one row. -/
theorem pairwise_filter_le_one (code_h subj : Str) :
    ∀ (l : List ScoreRecord), l.Pairwise (fun a b => ¬ samePair a b) →
      (l.filter (rowMatches code_h subj)).length ≤ 1
  | [], _ => by simp
  | r :: rest, hp => by
    rw [List.pairwise_cons] at hp
    obtain ⟨hr, hrest⟩ := hp
    by_cases hpr : rowMatches code_h subj r = true
    · rw [List.filter_cons_of_pos hpr]
      have hnil : rest.filter (rowMatches code_h subj) = [] := by
        rw [List.filter_eq_nil_iff]
        intro x hx hpx
        obtain ⟨hx1, hx2⟩ := (rowMatches_iff code_h subj x).mp hpx
        obtain ⟨hr1, hr2⟩ := (rowMatches_iff code_h subj r).mp hpr
        exact hr x hx ⟨hr1.trans hx1.symm, hr2.trans hx2.symm⟩
      rw [hnil]
      simp
    · rw [List.filter_cons_of_neg hpr]
      exact pairwise_filter_le_one code_h subj rest hrest

/-- After one upsert the rows matching the written key are exactly one
record holding the written value (provided the store satisfied the UNIQUE
invariant, which bounds the matches by one). -/
theorem filter_after_upsert (hm : Str → Str) (nc subj : Str) (v : PyFloat)
    (now : Str) (st : Store)
    (hle : (st.rows.filter
      (rowMatches (hm nc) (pyLower (pyStrip subj)))).length ≤ 1) :
    ∃ i, (add_or_update_score hm nc subj v now st).rows.filter
        (rowMatches (hm nc) (pyLower (pyStrip subj))) =
      [{ id := i, code_hmac := hm nc, subject := pyLower (pyStrip subj),
         score := v, updated_at := now }] := by
  rw [add_or_update_score_eq]
  set ch := hm nc with hch
  set ns := pyLower (pyStrip subj) with hns
  by_cases hany : st.rows.any (rowMatches ch ns) = true
  · rw [if_pos hany]
    have hpf : (rowMatches ch ns ∘ doUpdate ch ns v now) = rowMatches ch ns :=
      funext (fun r => rowMatches_doUpdate ch ns v now r)
    have hfil : (st.rows.map (doUpdate ch ns v now)).filter (rowMatches ch ns) =
        (st.rows.filter (rowMatches ch ns)).map (doUpdate ch ns v now) := by
      rw [List.filter_map, hpf]
    obtain ⟨r0, hr0mem, hr0⟩ := List.any_eq_true.mp hany
    have hlen : (st.rows.filter (rowMatches ch ns)).length = 1 := by
      have hpos : 0 < (st.rows.filter (rowMatches ch ns)).length :=
        List.length_pos.mpr (by
          intro hnil
          have := List.filter_eq_nil_iff.mp hnil r0 hr0mem
          exact this hr0)
      omega
    obtain ⟨r1, hr1⟩ := List.length_eq_one.mp hlen
    have hr1mem : r1 ∈ st.rows.filter (rowMatches ch ns) := by
      rw [hr1]; exact List.mem_singleton.mpr rfl
    have hr1p : rowMatches ch ns r1 = true := List.of_mem_filter hr1mem
    obtain ⟨hk1, hk2⟩ := (rowMatches_iff ch ns r1).mp hr1p
    refine ⟨r1.id, ?_⟩
    have hgoal : (st.rows.map (doUpdate ch ns v now)).filter (rowMatches ch ns) =
        [{ id := r1.id, code_hmac := ch, subject := ns, score := v, updated_at := now }] := by
      rw [hfil, hr1]
      simp only [List.map_cons, List.map_nil]
      unfold doUpdate
      rw [if_pos hr1p]
      congr 1
      cases r1
      simp_all [ScoreRecord.mk.injEq]
    exact hgoal
  · rw [if_neg hany]
    refine ⟨st.nextId, ?_⟩
    have hgoal : (st.rows ++ [({ id := st.nextId, code_hmac := ch, subject := ns, score := v, updated_at := now } : ScoreRecord)]).filter (rowMatches ch ns) =
        [{ id := st.nextId, code_hmac := ch, subject := ns, score := v, updated_at := now }] := by
      rw [List.filter_append]
      have hnil : st.rows.filter (rowMatches ch ns) = [] := by
        rw [List.filter_eq_nil_iff]
        intro x hx hpx
        exact hany (List.any_eq_true.mpr ⟨x, hx, hpx⟩)
      rw [hnil]
      simp [rowMatches]
    exact hgoal

/-- Round trip at the store level: after an upsert, looking the same key
and an equivalently-normalizing subject up yields the written value (no
invariant needed: the DO UPDATE clause rewrites every matching row). -/
theorem upsert_lookup (hm : Str → Str) (nc subj subj' : Str) (v : PyFloat)
    (now : Str) (st : Store)
    (h : pyLower (pyStrip subj') = pyLower (pyStrip subj)) :
    lookup_subject hm nc subj' (add_or_update_score hm nc subj v now st) =
      some (pyLower (pyStrip subj), v, now) := by
  unfold lookup_subject
  rw [h, add_or_update_score_eq]
  set ch := hm nc with hch
  set ns := pyLower (pyStrip subj) with hns
  by_cases hany : st.rows.any (rowMatches ch ns) = true
  · rw [if_pos hany]
    have hpf : (rowMatches ch ns ∘ doUpdate ch ns v now) = rowMatches ch ns :=
      funext (fun r => rowMatches_doUpdate ch ns v now r)
    have hfind : (st.rows.map (doUpdate ch ns v now)).find? (rowMatches ch ns) =
        (st.rows.find? (rowMatches ch ns)).map (doUpdate ch ns v now) := by
      rw [List.find?_map, hpf]
    obtain ⟨r0, hr0mem, hr0⟩ := List.any_eq_true.mp hany
    obtain ⟨r1, hr1⟩ := Option.isSome_iff_exists.mp
      (List.find?_isSome.mpr ⟨r0, hr0mem, hr0⟩)
    have hr1p : rowMatches ch ns r1 = true := List.find?_some hr1
    obtain ⟨_, hk2⟩ := (rowMatches_iff ch ns r1).mp hr1p
    have hgoal : ((st.rows.map (doUpdate ch ns v now)).find?
        (rowMatches ch ns)).map (fun r => (r.subject, r.score, r.updated_at)) =
        some (ns, v, now) := by
      rw [hfind, hr1]
      simp [doUpdate, hr1p, hk2]
    exact hgoal
  · rw [if_neg hany]
    have hnone : st.rows.find? (rowMatches ch ns) = none :=
      List.find?_eq_none.mpr
        (fun x hx hpx => hany (List.any_eq_true.mpr ⟨x, hx, hpx⟩))
    have hgoal : ((st.rows ++ [({ id := st.nextId, code_hmac := ch, subject := ns, score := v, updated_at := now } : ScoreRecord)]).find? (rowMatches ch ns)).map (fun r => (r.subject, r.score, r.updated_at)) = some (ns, v, now) := by
      rw [List.find?_append, hnone]
      simp [rowMatches]
    exact hgoal

/-!  ## Helper lemmas: invariant preservation  -/

/-- Upsert preserves the UNIQUE invariant. -/
theorem storeInv_upsert (hm : Str → Str) (nc subj : Str) (v : PyFloat)
    (now : Str) (st : Store) (h : StoreInv st) :
    StoreInv (add_or_update_score hm nc subj v now st) := by
  rw [StoreInv, add_or_update_score_eq]
  set ch := hm nc with hch
  set ns := pyLower (pyStrip subj) with hns
  by_cases hany : st.rows.any (rowMatches ch ns) = true
  · rw [if_pos hany]
    have hgoal : (st.rows.map (doUpdate ch ns v now)).Pairwise
        (fun a b => ¬ samePair a b) := by
      rw [List.pairwise_map]
      refine h.imp ?_
      intro a b hab hsame
      obtain ⟨ha1, ha2⟩ := doUpdate_key ch ns v now a
      obtain ⟨hb1, hb2⟩ := doUpdate_key ch ns v now b
      obtain ⟨hs1, hs2⟩ := hsame
      exact hab ⟨(ha1.symm.trans hs1).trans hb1, (ha2.symm.trans hs2).trans hb2⟩
    exact hgoal
  · rw [if_neg hany]
    have hgoal : (st.rows ++ [({ id := st.nextId, code_hmac := ch, subject := ns, score := v, updated_at := now } : ScoreRecord)]).Pairwise (fun a b => ¬ samePair a b) := by
      rw [List.pairwise_append]
      refine ⟨h, List.pairwise_singleton _ _, ?_⟩
      intro a ha b hb hsame
      rw [List.mem_singleton] at hb
      obtain ⟨hs1, hs2⟩ := hsame
      rw [hb] at hs1 hs2
      exact hany (List.any_eq_true.mpr
        ⟨a, ha, (rowMatches_iff ch ns a).mpr ⟨hs1, hs2⟩⟩)
    exact hgoal

/-- Targeted delete preserves the UNIQUE invariant. -/
theorem storeInv_remove (hm : Str → Str) (nc subj : Str) (st : Store)
    (h : StoreInv st) : StoreInv (remove_score hm nc subj st).1 := by
  unfold remove_score StoreInv
  exact h.sublist (List.filter_sublist st.rows)

/-- Delete-all preserves the UNIQUE invariant. -/
theorem storeInv_removeAll (hm : Str → Str) (nc : Str) (st : Store)
    (h : StoreInv st) : StoreInv (remove_all_scores hm nc st).1 := by
  unfold remove_all_scores StoreInv
  exact h.sublist (List.filter_sublist st.rows)

/-- The store states reachable from the freshly initialized database by
the three mutating operations. -/
inductive Reachable : Store → Prop where
  | init : Reachable emptyStore
  | upsert (hm : Str → Str) (nc subj : Str) (v : PyFloat) (now : Str)
      (st : Store) (h : Reachable st) :
      Reachable (add_or_update_score hm nc subj v now st)
  | remove (hm : Str → Str) (nc subj : Str) (st : Store)
      (h : Reachable st) : Reachable (remove_score hm nc subj st).1
  | removeAll (hm : Str → Str) (nc : Str) (st : Store)
      (h : Reachable st) : Reachable (remove_all_scores hm nc st).1

/-- Every reachable store satisfies the UNIQUE invariant. -/
theorem reachable_storeInv (st : Store) (h : Reachable st) : StoreInv st := by
  induction h with
  | init => exact List.Pairwise.nil
  | upsert hm nc subj v now st _ ih => exact storeInv_upsert hm nc subj v now st ih
  | remove hm nc subj st _ ih => exact storeInv_remove hm nc subj st ih
  | removeAll hm nc st _ ih => exact storeInv_removeAll hm nc st ih

/-- The kept rows shrink exactly when some row passes the delete test. -/
theorem filter_keep_lt_iff {α : Type} (p : α → Bool) :
    ∀ (l : List α), (l.filter (fun r => !p r)).length < l.length ↔
      ∃ r ∈ l, p r = true
  | [] => by simp
  | a :: t => by
    by_cases h : p a = true
    · simp only [List.filter_cons, h, Bool.not_true, List.length_cons]
      constructor
      · intro _; exact ⟨a, List.mem_cons_self a t, h⟩
      · intro _
        exact Nat.lt_succ_of_le (List.length_filter_le _ t)
    · rw [Bool.not_eq_true] at h
      simp only [List.filter_cons, h, Bool.not_false, List.length_cons, if_true]
      rw [Nat.succ_lt_succ_iff, filter_keep_lt_iff p t]
      constructor
      · rintro ⟨r, hr, hpr⟩; exact ⟨r, List.mem_cons_of_mem a hr, hpr⟩
      · rintro ⟨r, hr, hpr⟩
        rcases List.mem_cons.mp hr with h1 | h2
        · rw [h1] at hpr; rw [hpr] at h; cases h
        · exact ⟨r, h2, hpr⟩

/-!  ## Claim theorems: the record store  -/

/-- C4: For every code_key, subject string, and score v, performing
upsert(code_key, subject, v) and then lookup_one on the same code_key and
a subject equal up to leading/trailing whitespace and letter case returns
a record whose score is the written v. -/
theorem C4_upsert_lookup_round_trip (hm : Str → Str) (nc subj subj' : Str)
    (v : PyFloat) (now : Str) (st : Store)
    (h : pyLower (pyStrip subj') = pyLower (pyStrip subj)) :
    lookup_subject hm nc subj' (add_or_update_score hm nc subj v now st) =
      some (pyLower (pyStrip subj), v, now) :=
  upsert_lookup hm nc subj subj' v now st h

/-- Witness for C4 at concrete inputs. -/
theorem C4_witness :
    lookup_subject (fun s => s) (str "1234567891") (str "  mAtH ")
      (add_or_update_score (fun s => s) (str "1234567891") (str "Math")
        (PyFloat.finite 18) (str "t0") emptyStore) =
      some (pyLower (pyStrip (str "Math")), PyFloat.finite 18, str "t0") :=
  C4_upsert_lookup_round_trip (fun s => s) (str "1234567891") (str "Math")
    (str "  mAtH ") (PyFloat.finite 18) (str "t0") emptyStore (by decide)

/-- C5: In every store state reachable by the operations, at most one
ScoreRecord exists per (code_key, normalized subject) pair; and applying
upsert(key, subj, v) twice yields exactly one record for that pair with
value v, never a duplicate insert. -/
theorem C5_unique_per_pair :
    (∀ st, Reachable st → StoreInv st) ∧
    (∀ (st : Store), StoreInv st → ∀ (hm : Str → Str) (nc subj : Str)
      (v : PyFloat) (now now' : Str),
      ∃ i, ((add_or_update_score hm nc subj v now'
          (add_or_update_score hm nc subj v now st)).rows.filter
          (rowMatches (hm nc) (pyLower (pyStrip subj)))) =
        [{ id := i, code_hmac := hm nc, subject := pyLower (pyStrip subj), score := v, updated_at := now' }]) := by
  refine ⟨reachable_storeInv, ?_⟩
  intro st hinv hm nc subj v now now'
  have h1 : (st.rows.filter
      (rowMatches (hm nc) (pyLower (pyStrip subj)))).length ≤ 1 :=
    pairwise_filter_le_one _ _ st.rows hinv
  obtain ⟨i1, hi1⟩ := filter_after_upsert hm nc subj v now st h1
  have h2 : ((add_or_update_score hm nc subj v now st).rows.filter
      (rowMatches (hm nc) (pyLower (pyStrip subj)))).length ≤ 1 := by
    rw [hi1]
    simp
  exact filter_after_upsert hm nc subj v now' _ h2

/-- Witness for C5: from the initialized database, a double upsert leaves
exactly one matching record. -/
theorem C5_witness :
    StoreInv emptyStore ∧
    ∃ i, ((add_or_update_score (fun s => s) (str "1234567891") (str "Math")
        (PyFloat.finite 18) (str "t1")
        (add_or_update_score (fun s => s) (str "1234567891") (str "Math")
          (PyFloat.finite 18) (str "t0") emptyStore)).rows.filter
        (rowMatches ((fun s : Str => s) (str "1234567891"))
          (pyLower (pyStrip (str "Math"))))) =
      [{ id := i, code_hmac := (fun s : Str => s) (str "1234567891"), subject := pyLower (pyStrip (str "Math")), score := PyFloat.finite 18, updated_at := str "t1" }] :=
  ⟨C5_unique_per_pair.1 emptyStore Reachable.init,
   C5_unique_per_pair.2 emptyStore List.Pairwise.nil (fun s => s)
     (str "1234567891") (str "Math") (PyFloat.finite 18) (str "t0") (str "t1")⟩

/-- C6: delete returns true iff a record for the pair existed and was
removed; delete on a nonexistent pair returns false and leaves the store
unchanged; delete_all on a key with no records returns 0 (and changes
nothing). -/
theorem C6_delete_semantics (hm : Str → Str) (nc subj : Str) (st : Store) :
    ((remove_score hm nc subj st).2 = true ↔
      ∃ r ∈ st.rows, r.code_hmac = hm nc ∧
        r.subject = pyLower (pyStrip subj)) ∧
    ((remove_score hm nc subj st).2 = false →
      (remove_score hm nc subj st).1 = st) ∧
    ((∀ r ∈ st.rows, r.code_hmac ≠ hm nc) →
      remove_all_scores hm nc st = (st, 0)) := by
  refine ⟨?_, ?_, ?_⟩
  · show (decide (st.rows.length - (st.rows.filter
      (fun r => !rowMatches (hm nc) (pyLower (pyStrip subj)) r)).length > 0) = true) ↔ _
    rw [decide_eq_true_eq]
    have hle := List.length_filter_le
      (fun r => !rowMatches (hm nc) (pyLower (pyStrip subj)) r) st.rows
    have hiff := filter_keep_lt_iff
      (rowMatches (hm nc) (pyLower (pyStrip subj))) st.rows
    constructor
    · intro h
      obtain ⟨r, hr, hpr⟩ := hiff.mp (by omega)
      exact ⟨r, hr, (rowMatches_iff _ _ r).mp hpr⟩
    · rintro ⟨r, hr, hk1, hk2⟩
      have := hiff.mpr ⟨r, hr, (rowMatches_iff _ _ r).mpr ⟨hk1, hk2⟩⟩
      omega
  · intro h
    have hle := List.length_filter_le
      (fun r => !rowMatches (hm nc) (pyLower (pyStrip subj)) r) st.rows
    have hnot : ¬ (st.rows.length - (st.rows.filter
        (fun r => !rowMatches (hm nc) (pyLower (pyStrip subj)) r)).length > 0) := by
      intro hgt
      have : (remove_score hm nc subj st).2 = true := by
        show decide _ = true
        rw [decide_eq_true_eq]
        exact hgt
      rw [h] at this
      cases this
    have heq : (st.rows.filter
        (fun r => !rowMatches (hm nc) (pyLower (pyStrip subj)) r)).length =
        st.rows.length := by omega
    have hsame := List.filter_length_eq_length.mp heq
    show ({ st with rows := st.rows.filter (fun r => !rowMatches (hm nc) (pyLower (pyStrip subj)) r) } : Store) = st
    rw [List.filter_eq_self.mpr hsame]
  · intro h
    have hall : ∀ r ∈ st.rows, (!(decide (r.code_hmac = hm nc))) = true := by
      intro r hr
      simp only [Bool.not_eq_true']
      rw [decide_eq_false_iff_not]
      exact h r hr
    have hfe := List.filter_eq_self.mpr hall
    show (({ st with rows := st.rows.filter (fun r => !(decide (r.code_hmac = hm nc))) } : Store), st.rows.length - (st.rows.filter (fun r => !(decide (r.code_hmac = hm nc)))).length) = (st, 0)
    rw [hfe, Nat.sub_self]

/-- Witness for C6 at a concrete store. -/
theorem C6_witness :
    (remove_score (fun s => s) (str "1234567891") (str "x") emptyStore).1 =
      emptyStore ∧
    remove_all_scores (fun s => s) (str "1234567891") emptyStore =
      (emptyStore, 0) :=
  ⟨(C6_delete_semantics (fun s => s) (str "1234567891") (str "x")
      emptyStore).2.1 (by decide),
   (C6_delete_semantics (fun s => s) (str "1234567891") (str "x")
      emptyStore).2.2 (by intro r hr; cases hr)⟩

/-- C8: list_keys(200) returns only distinct code_keys present in the
store and never more than 200 entries. -/
theorem C8_list_codes_cap (st : Store) :
    (select_distinct_codes st).Nodup ∧
    (∀ k ∈ select_distinct_codes st, ∃ r ∈ st.rows, r.code_hmac = k) ∧
    (select_distinct_codes st).length ≤ 200 := by
  refine ⟨?_, ?_, ?_⟩
  · exact (List.nodup_dedup (st.rows.map (fun r => r.code_hmac))).sublist
      (List.take_sublist 200 _)
  · intro k hk
    have h1 : k ∈ (st.rows.map (fun r => r.code_hmac)).dedup :=
      List.take_subset 200 _ hk
    have h2 : k ∈ st.rows.map (fun r => r.code_hmac) := List.mem_dedup.mp h1
    obtain ⟨r, hr, hrk⟩ := List.mem_map.mp h2
    exact ⟨r, hr, hrk⟩
  · show ((st.rows.map (fun r => r.code_hmac)).dedup.take 200).length ≤ 200
    rw [List.length_take]
    exact min_le_left 200 _

/-- A one-row store used by witnesses. -/
def stEx : Store :=
  { rows := [{ id := 1, code_hmac := str "k", subject := str "s", score := PyFloat.nan, updated_at := str "t" }],
    nextId := 2 }

/-- Witness for C8 at a concrete store. -/
theorem C8_witness :
    (select_distinct_codes stEx).Nodup ∧
    (∃ r ∈ stEx.rows, r.code_hmac = str "k") ∧
    (select_distinct_codes stEx).length ≤ 200 :=
  ⟨(C8_list_codes_cap stEx).1,
   (C8_list_codes_cap stEx).2.1 (str "k") (by decide),
   (C8_list_codes_cap stEx).2.2⟩

/-!  ## Claim theorems: privilege gating  -/

/-- C7: a caller whose identity is not in the privileged set gets the
authorization refusal from every mutation handler, and the store is
unchanged. -/
theorem C7_admin_gating (cfg : Config) (uid : Int) (text now : Str)
    (rows : List (Str × Str × Str)) (st : Store)
    (h : is_admin cfg.admins uid = false) :
    add_cmd cfg uid text now st = some (st, Reply.notAdmin) ∧
    remove_cmd cfg uid text st = some (st, Reply.notAdmin) ∧
    remove_all_cmd cfg uid text st = some (st, Reply.notAdmin) ∧
    add_bulk_cmd cfg uid text now st = some (st, Reply.notAdmin) ∧
    add_file_cmd cfg uid rows now st = (st, Reply.notAdmin) := by
  unfold add_cmd remove_cmd remove_all_cmd add_bulk_cmd add_file_cmd
  rw [h]
  exact ⟨rfl, rfl, rfl, rfl, rfl⟩

/-- The configuration used by witnesses: caller 1 is the only admin and
the pseudonymizer is instantiated with a concrete keyed hash. -/
def cfg0 : Config := { admins := [1], hmacFn := fun s => s }

/-- Witness for C7: caller 2 is rejected everywhere. -/
theorem C7_witness :
    add_cmd cfg0 2 (str "/add 1234567891 math 18") (str "t") emptyStore =
      some (emptyStore, Reply.notAdmin) ∧
    remove_cmd cfg0 2 (str "/add 1234567891 math 18") emptyStore =
      some (emptyStore, Reply.notAdmin) ∧
    remove_all_cmd cfg0 2 (str "/add 1234567891 math 18") emptyStore =
      some (emptyStore, Reply.notAdmin) ∧
    add_bulk_cmd cfg0 2 (str "/add 1234567891 math 18") (str "t")
      emptyStore = some (emptyStore, Reply.notAdmin) ∧
    add_file_cmd cfg0 2 [] (str "t") emptyStore = (emptyStore, Reply.notAdmin) :=
  C7_admin_gating cfg0 2 (str "/add 1234567891 math 18") (str "t") []
    emptyStore (by decide)

/-!  ## Helper lemmas: the bulk loops  -/

/-- headD of a nonempty list is a member. -/
theorem headD_mem {α : Type} (l : List α) (d : α) (h : l ≠ []) :
    l.headD d ∈ l := by
  cases l with
  | nil => exact absurd rfl h
  | cons a t => exact List.mem_cons_self a t

/-- A file-loop iteration raises exactly when validation raises on the
translated code field. -/
theorem file_step_none_iff (cfg : Config) (now : Str) (st : Store)
    (row : Str × Str × Str) :
    file_step cfg now st row = none ↔
      valid_iranian_national_code (persian_to_english_number row.1) = none := by
  unfold file_step
  cases hv : valid_iranian_national_code (persian_to_english_number row.1) with
  | none => simp [hv]
  | some b =>
    cases b with
    | false => simp [hv]
    | true =>
      cases hp : pyfloat (persian_to_english_number row.2.2) <;> simp [hv, hp]

/-- A text-bulk iteration never raises: its code argument is a token, and
tokens cannot contain the newline required to trigger the ValueError. -/
theorem bulk_step_isSome (cfg : Config) (now : Str) (st : Store)
    (line : Str) : (bulk_step cfg now st line).isSome := by
  unfold bulk_step
  by_cases hlen : (tokenize line).length < 3
  · rw [if_pos hlen]
    rfl
  · rw [if_neg hlen]
    have hne : tokenize line ≠ [] := by
      intro hnil
      rw [hnil] at hlen
      simp at hlen
    have hmem : (tokenize line).headD [] ∈ tokenize line :=
      headD_mem (tokenize line) [] hne
    have hnosep : ∀ c ∈ (tokenize line).headD [], isSep c = false :=
      tokenize_no_sep line ((tokenize line).headD []) hmem
    have hnonl : '\n' ∉ (tokenize line).headD [] := by
      intro hnl
      have := hnosep '\n' hnl
      simp [isSep, pyIsSpace] at this
    have hvs := valid_isSome_of_no_newline (newline_notin_p2e hnonl)
    cases hv : valid_iranian_national_code
        (persian_to_english_number ((tokenize line).headD [])) with
    | none => rw [hv] at hvs; cases hvs
    | some b =>
      cases b with
      | false => simp only [hv, Option.isSome_some]
      | true =>
        cases hp : pyfloat (persian_to_english_number
          ((tokenize line).getLastD [])) <;>
          simp only [hv, hp, Option.isSome_some]

/-- The text bulk loop always reports one outcome per input line. -/
theorem bulk_run_length (cfg : Config) (now : Str) :
    ∀ (lines : List Str) (st : Store),
      ∃ outs, (bulk_run cfg now st lines).2 = some outs ∧
        outs.length = lines.length
  | [], st => ⟨[], rfl, rfl⟩
  | l :: ls, st => by
    obtain ⟨⟨st1, o⟩, ho⟩ := Option.isSome_iff_exists.mp
      (bulk_step_isSome cfg now st l)
    obtain ⟨outs, h1, h2⟩ := bulk_run_length cfg now ls st1
    refine ⟨o :: outs, ?_, by simp [h2]⟩
    simp only [bulk_run, ho]
    rw [h1]
    rfl

/-- Processing a concatenation of line blocks processes the first block,
then the second from the resulting store, and concatenates the reports:
rows are handled strictly in input order and independently. -/
theorem bulk_run_append (cfg : Config) (now : Str) :
    ∀ (l1 l2 : List Str) (st : Store),
      bulk_run cfg now st (l1 ++ l2) =
        ((bulk_run cfg now (bulk_run cfg now st l1).1 l2).1,
         (bulk_run cfg now st l1).2.bind (fun o1 =>
           ((bulk_run cfg now (bulk_run cfg now st l1).1 l2).2).map
             (fun o2 => o1 ++ o2)))
  | [], l2, st => by simp [bulk_run]
  | l :: ls, l2, st => by
    simp only [List.cons_append, bulk_run]
    cases hstep : bulk_step cfg now st l with
    | none =>
      have := bulk_step_isSome cfg now st l
      rw [hstep] at this
      cases this
    | some p =>
      obtain ⟨st1, o⟩ := p
      simp only [List.append_eq]
      rw [bulk_run_append cfg now ls l2 st1]
      cases h2 : (bulk_run cfg now st1 ls).2 with
      | none => simp
      | some o1 =>
        cases h3 : (bulk_run cfg now (bulk_run cfg now st1 ls).1 l2).2 with
        | none => simp
        | some o2 => simp

/-- The i-th outcome of the text bulk loop is the outcome of the i-th
line, run against the store produced by the first i lines. -/
theorem bulk_run_nth (cfg : Config) (now : Str) :
    ∀ (lines : List Str) (st : Store) (i : Nat), i < lines.length →
      ∀ outs, (bulk_run cfg now st lines).2 = some outs →
        some (outs.getD i (RowOutcome.badFormat [])) =
          (bulk_step cfg now (bulk_run cfg now st (lines.take i)).1
            (lines.getD i [])).map Prod.snd
  | [], st, i, hi => by simp at hi
  | l :: ls, st, i, hi => by
    intro outs houts
    cases hstep : bulk_step cfg now st l with
    | none =>
      rw [bulk_run, hstep] at houts
      cases houts
    | some p =>
      obtain ⟨st1, o⟩ := p
      rw [bulk_run, hstep] at houts
      simp only at houts
      obtain ⟨os, hos, hcons⟩ := Option.map_eq_some'.mp houts
      cases i with
      | zero =>
        rw [← hcons]
        simp [bulk_run, hstep]
      | succ j =>
        rw [← hcons]
        have hj : j < ls.length := by
          simp only [List.length_cons] at hi
          omega
        have := bulk_run_nth cfg now ls st1 j hj os hos
        simp only [List.take_succ_cons, List.getD_cons_succ, bulk_run, hstep]
        simpa using this

/-- A file row that raises, by position in the list. -/
def rowCrashes (row : Str × Str × Str) : Bool :=
  (valid_iranian_national_code (persian_to_english_number row.1)).isNone

/-- The file loop also reports one outcome per row, provided no row
raises. -/
theorem file_run_length (cfg : Config) (now : Str) :
    ∀ (rows : List (Str × Str × Str)) (st : Store),
      (∀ r ∈ rows, rowCrashes r = false) →
      ∃ outs, (file_run cfg now st rows).2 = some outs ∧
        outs.length = rows.length
  | [], st, _ => ⟨[], rfl, rfl⟩
  | r :: rs, st, h => by
    have hr : rowCrashes r = false := h r (List.mem_cons_self r rs)
    have hsome : file_step cfg now st r ≠ none := by
      rw [Ne, file_step_none_iff]
      intro hv
      rw [rowCrashes, hv] at hr
      cases hr
    cases hstep : file_step cfg now st r with
    | none => exact absurd hstep hsome
    | some p =>
      obtain ⟨st1, o⟩ := p
      obtain ⟨outs, h1, h2⟩ := file_run_length cfg now rs st1
        (fun x hx => h x (List.mem_cons_of_mem r hx))
      refine ⟨o :: outs, ?_, by simp [h2]⟩
      simp only [file_run, hstep]
      rw [h1]
      rfl

/-- The i-th outcome of the file loop (when it completes) comes from the
i-th row run against the store produced by the earlier rows. -/
theorem file_run_nth (cfg : Config) (now : Str) :
    ∀ (rows : List (Str × Str × Str)) (st : Store) (i : Nat),
      i < rows.length →
      ∀ outs, (file_run cfg now st rows).2 = some outs →
        some (outs.getD i (RowOutcome.badFormat [])) =
          (file_step cfg now (file_run cfg now st (rows.take i)).1
            (rows.getD i ([], [], []))).map Prod.snd
  | [], st, i, hi => by simp at hi
  | r :: rs, st, i, hi => by
    intro outs houts
    cases hstep : file_step cfg now st r with
    | none =>
      rw [file_run, hstep] at houts
      cases houts
    | some p =>
      obtain ⟨st1, o⟩ := p
      rw [file_run, hstep] at houts
      simp only at houts
      obtain ⟨os, hos, hcons⟩ := Option.map_eq_some'.mp houts
      cases i with
      | zero =>
        rw [← hcons]
        simp [file_run, hstep]
      | succ j =>
        rw [← hcons]
        have hj : j < rs.length := by
          simp only [List.length_cons] at hi
          omega
        have := file_run_nth cfg now rs st1 j hj os hos
        simp only [List.take_succ_cons, List.getD_cons_succ, file_run, hstep]
        simpa using this

/-- When a row raises, the file loop stops there: the earlier rows stay
committed (the store is exactly the one their processing produced, with no
rollback), the later rows are never processed, and the per-row report is
replaced by the exception. -/
theorem file_run_crash (cfg : Config) (now : Str) :
    ∀ (rows1 : List (Str × Str × Str)) (r : Str × Str × Str)
      (rows2 : List (Str × Str × Str)) (st : Store),
      rowCrashes r = true →
      file_run cfg now st (rows1 ++ r :: rows2) =
        ((file_run cfg now st rows1).1, none)
  | [], r, rows2, st, hc => by
    have hnone : file_step cfg now st r = none := by
      rw [file_step_none_iff]
      rw [rowCrashes, Option.isNone_iff_eq_none] at hc
      exact hc
    simp [file_run, hnone]
  | x :: xs, r, rows2, st, hc => by
    simp only [List.cons_append, file_run]
    cases hstep : file_step cfg now st x with
    | none => rfl
    | some p =>
      obtain ⟨st1, o⟩ := p
      simp only [List.append_eq]
      rw [file_run_crash cfg now xs r rows2 st1 hc]
      rfl

/-!  ## Claim theorems: bulk reconciliation  -/

/-- C2 (amended): the inline-text bulk loop processes rows strictly in
input order, never aborts, and reports exactly one outcome per line, in
order.  The file loop does the same provided no row raises; a row whose
code field is ten decimal digits followed by a newline raises inside the
loop, which aborts it: earlier rows stay committed (no rollback), later
rows are never processed, and the per-row report is replaced by a single
file-level error. -/
theorem C2_row_independent_ordering (cfg : Config) (now : Str) :
    (∀ (st : Store) (lines : List Str),
      ∃ outs, (bulk_run cfg now st lines).2 = some outs ∧
        outs.length = lines.length) ∧
    (∀ (l1 l2 : List Str) (st : Store),
      bulk_run cfg now st (l1 ++ l2) =
        ((bulk_run cfg now (bulk_run cfg now st l1).1 l2).1,
         (bulk_run cfg now st l1).2.bind (fun o1 =>
           ((bulk_run cfg now (bulk_run cfg now st l1).1 l2).2).map
             (fun o2 => o1 ++ o2)))) ∧
    (∀ (lines : List Str) (st : Store) (i : Nat), i < lines.length →
      ∀ outs, (bulk_run cfg now st lines).2 = some outs →
        some (outs.getD i (RowOutcome.badFormat [])) =
          (bulk_step cfg now (bulk_run cfg now st (lines.take i)).1
            (lines.getD i [])).map Prod.snd) ∧
    (∀ (rows : List (Str × Str × Str)) (st : Store),
      (∀ r ∈ rows, rowCrashes r = false) →
      ∃ outs, (file_run cfg now st rows).2 = some outs ∧
        outs.length = rows.length) ∧
    (∀ (rows : List (Str × Str × Str)) (st : Store) (i : Nat),
      i < rows.length →
      ∀ outs, (file_run cfg now st rows).2 = some outs →
        some (outs.getD i (RowOutcome.badFormat [])) =
          (file_step cfg now (file_run cfg now st (rows.take i)).1
            (rows.getD i ([], [], []))).map Prod.snd) ∧
    (∀ (rows1 : List (Str × Str × Str)) (r : Str × Str × Str)
      (rows2 : List (Str × Str × Str)) (st : Store), rowCrashes r = true →
      file_run cfg now st (rows1 ++ r :: rows2) =
        ((file_run cfg now st rows1).1, none)) :=
  ⟨fun st lines => bulk_run_length cfg now lines st,
   fun l1 l2 st => bulk_run_append cfg now l1 l2 st,
   fun lines st i hi => bulk_run_nth cfg now lines st i hi,
   fun rows st h => file_run_length cfg now rows st h,
   fun rows st i hi => file_run_nth cfg now rows st i hi,
   fun rows1 r rows2 st hc => file_run_crash cfg now rows1 r rows2 st hc⟩

/-- A well-formed file row with a valid code. -/
def okRow1 : Str × Str × Str := (str "1234567891", str "math", str "18")

/-- A file row whose code field is ten digits plus a trailing newline:
the regex accepts it and int() then raises. -/
def crashRow : Str × Str × Str := (str "0123456789\n", str "x", str "1")

/-- A second well-formed file row. -/
def okRow2 : Str × Str × Str := (str "0123456789", str "sci", str "19")

/-- Counterexample to C2 as stated: on the file path a failing row aborts
the batch.  Three input rows produce no per-row outcomes at all, the row
after the failure is never applied, while the row before it stays
committed. -/
theorem C2_counterexample :
    (file_run cfg0 (str "t0") emptyStore [okRow1, crashRow, okRow2]).2 =
      none ∧
    [okRow1, crashRow, okRow2].length = 3 ∧
    lookup_subject cfg0.hmacFn (str "0123456789") (str "sci")
      (file_run cfg0 (str "t0") emptyStore [okRow1, crashRow, okRow2]).1 =
      none ∧
    lookup_subject cfg0.hmacFn (str "1234567891") (str "math")
      (file_run cfg0 (str "t0") emptyStore [okRow1, crashRow, okRow2]).1 =
      some (str "math", PyFloat.finite 18, str "t0") := by
  refine ⟨by decide, by decide, by decide, by decide⟩

/-- Witness for C2 at concrete inputs. -/
theorem C2_witness :
    (∃ outs, (bulk_run cfg0 (str "t") emptyStore
      [str "1234567891 math 18", str "bad"]).2 = some outs ∧
      outs.length = [str "1234567891 math 18", str "bad"].length) ∧
    file_run cfg0 (str "t") emptyStore ([okRow1] ++ crashRow :: []) =
      ((file_run cfg0 (str "t") emptyStore [okRow1]).1, none) :=
  ⟨(C2_row_independent_ordering cfg0 (str "t")).1 emptyStore
     [str "1234567891 math 18", str "bad"],
   (C2_row_independent_ordering cfg0 (str "t")).2.2.2.2.2 [okRow1] crashRow
     [] emptyStore (by decide)⟩

/-- C3 (amended): on the inline-text path a row with fewer than three
non-empty fields after tokenization is rejected as bad format before any
validation, without touching the store; the file path has no field-count
check, so a row whose code field is empty (hence invalid) is rejected as
an invalid code instead, also without touching the store. -/
theorem C3_short_row_rejected (cfg : Config) (now : Str) (st : Store) :
    (∀ line : Str, (tokenize line).length < 3 →
      bulk_step cfg now st line = some (st, RowOutcome.badFormat line)) ∧
    (∀ row : Str × Str × Str,
      valid_iranian_national_code (persian_to_english_number row.1) =
        some false →
      file_step cfg now st row =
        some (st, RowOutcome.invalidCode (persian_to_english_number row.1))) := by
  constructor
  · intro line h
    unfold bulk_step
    rw [if_pos h]
  · intro row h
    unfold file_step
    simp only [h]

/-- Counterexample to C3 as stated: a file row supplying only two
non-empty fields is not RejectedBadFormat; it reaches code validation and
is rejected as an invalid code. -/
theorem C3_counterexample :
    (([str "", str "math", str "18"].filter (fun f => !f.isEmpty)).length < 3)
    ∧ file_step cfg0 (str "t") emptyStore (str "", str "math", str "18") =
      some (emptyStore, RowOutcome.invalidCode []) := by
  refine ⟨by decide, by decide⟩

/-- Witness for C3 at concrete inputs. -/
theorem C3_witness :
    bulk_step cfg0 (str "t") emptyStore (str "only|two") =
      some (emptyStore, RowOutcome.badFormat (str "only|two")) ∧
    file_step cfg0 (str "t") emptyStore (str "", str "math", str "18") =
      some (emptyStore,
        RowOutcome.invalidCode (persian_to_english_number (str ""))) :=
  ⟨(C3_short_row_rejected cfg0 (str "t") emptyStore).1 (str "only|two")
     (by decide),
   (C3_short_row_rejected cfg0 (str "t") emptyStore).2
     (str "", str "math", str "18") (by decide)⟩

/-- C10: on every mutation path, once the code is valid, the row or
command is rejected as a non-numeric score exactly when float parsing
rejects the (digit-translated) score field, and otherwise the parsed value
is stored unchanged; the non-finite spellings nan, inf and -inf parse
successfully, and the resulting non-finite value is stored and served
back, no path imposing any finiteness or range check. -/
theorem C10_score_parsing (cfg : Config) (now : Str) :
    (∀ (st : Store) (row : Str × Str × Str),
      valid_iranian_national_code (persian_to_english_number row.1) =
        some true →
      file_step cfg now st row =
        (match pyfloat (persian_to_english_number row.2.2) with
         | none => some (st, RowOutcome.notNumber (persian_to_english_number row.1) row.2.1)
         | some v => some (add_or_update_score cfg.hmacFn (persian_to_english_number row.1) row.2.1 v now st, RowOutcome.registered (persian_to_english_number row.1) row.2.1))) ∧
    (∀ (st : Store) (line : Str), 3 ≤ (tokenize line).length →
      valid_iranian_national_code
        (persian_to_english_number ((tokenize line).headD [])) = some true →
      bulk_step cfg now st line =
        (match pyfloat (persian_to_english_number ((tokenize line).getLastD [])) with
         | none => some (st, RowOutcome.notNumber (persian_to_english_number ((tokenize line).headD [])) (joinWords (((tokenize line).drop 1).dropLast)))
         | some v => some (add_or_update_score cfg.hmacFn (persian_to_english_number ((tokenize line).headD [])) (joinWords (((tokenize line).drop 1).dropLast)) v now st, RowOutcome.registered (persian_to_english_number ((tokenize line).headD [])) (joinWords (((tokenize line).drop 1).dropLast))))) ∧
    (∀ (st : Store) (uid : Int) (text : Str),
      is_admin cfg.admins uid = true →
      (pyStrip (afterFirst ' ' text)).isEmpty = false →
      3 ≤ (tokenize (pyStrip (afterFirst ' ' text))).length →
      valid_iranian_national_code (persian_to_english_number
        ((tokenize (pyStrip (afterFirst ' ' text))).headD [])) = some true →
      add_cmd cfg uid text now st =
        (match pyfloat (persian_to_english_number ((tokenize (pyStrip (afterFirst ' ' text))).getLastD [])) with
         | none => some (st, Reply.notNumber)
         | some v => some (add_or_update_score cfg.hmacFn (persian_to_english_number ((tokenize (pyStrip (afterFirst ' ' text))).headD [])) (joinWords (((tokenize (pyStrip (afterFirst ' ' text))).drop 1).dropLast)) v now st, Reply.added (persian_to_english_number ((tokenize (pyStrip (afterFirst ' ' text))).headD [])) (joinWords (((tokenize (pyStrip (afterFirst ' ' text))).drop 1).dropLast))))) ∧
    (pyfloat (str "nan") = some PyFloat.nan ∧
     pyfloat (str "inf") = some PyFloat.inf ∧
     pyfloat (str "-inf") = some PyFloat.neginf) ∧
    (∀ st : Store, lookup_subject cfg.hmacFn (str "1234567891") (str "mth")
        (add_or_update_score cfg.hmacFn (str "1234567891") (str "mth")
          PyFloat.nan now st) =
      some (pyLower (pyStrip (str "mth")), PyFloat.nan, now)) := by
  refine ⟨?_, ?_, ?_, ⟨by decide, by decide, by decide⟩, ?_⟩
  · intro st row hv
    unfold file_step
    simp only [hv]
  · intro st line hlen hv
    unfold bulk_step
    rw [if_neg (by omega : ¬ (tokenize line).length < 3)]
    simp only [hv]
  · intro st uid text hadmin hpay hlen hv
    unfold add_cmd
    rw [hadmin]
    simp only [Bool.not_true, Bool.false_eq_true, if_false]
    rw [hpay]
    simp only [Bool.false_eq_true, if_false]
    rw [if_neg (by omega :
      ¬ (tokenize (pyStrip (afterFirst ' ' text))).length < 3)]
    simp only [hv]
  · intro st
    exact upsert_lookup cfg.hmacFn (str "1234567891") (str "mth")
      (str "mth") PyFloat.nan now st rfl

/-- Witness for C10 at concrete inputs: a nan score is accepted, stored
and served back. -/
theorem C10_witness :
    file_step cfg0 (str "t") emptyStore (str "1234567891", str "x", str "nan") =
      (match pyfloat (persian_to_english_number (str "nan")) with
       | none => some (emptyStore, RowOutcome.notNumber (persian_to_english_number (str "1234567891")) (str "x"))
       | some v => some (add_or_update_score cfg0.hmacFn (persian_to_english_number (str "1234567891")) (str "x") v (str "t") emptyStore, RowOutcome.registered (persian_to_english_number (str "1234567891")) (str "x"))) ∧
    lookup_subject cfg0.hmacFn (str "1234567891") (str "mth")
      (add_or_update_score cfg0.hmacFn (str "1234567891") (str "mth")
        PyFloat.nan (str "t") emptyStore) =
      some (pyLower (pyStrip (str "mth")), PyFloat.nan, str "t") :=
  ⟨(C10_score_parsing cfg0 (str "t")).1 emptyStore
     (str "1234567891", str "x", str "nan") (by decide),
   (C10_score_parsing cfg0 (str "t")).2.2.2.2 emptyStore⟩

/-!  ## Claim theorems: the validator  -/

/-- C1 (amended): on exactly ten ASCII digits the validator returns true
iff the ten digits are not all identical and the mod-11 weighted checksum
matches, exactly as specified.  But the digit class is the full Unicode
one: a string that is neither ten decimal digits nor ten decimal digits
plus a trailing newline is reported invalid, while the latter shape raises
a conversion error instead of returning. -/
theorem C1_checksum_validation :
    (∀ code : Str, code.length = 10 → (∀ c ∈ code, c.isDigit = true) →
      (valid_iranian_national_code code = some true ↔
        ((∃ c ∈ code, ∃ c' ∈ code, c ≠ c') ∧ claimChecksum code))) ∧
    (∀ s : Str, ¬(s.length = 10 ∧ ∀ c ∈ s, isPyDecimalDigit c = true) →
      ¬(s.length = 11 ∧ (∀ c ∈ s.take 10, isPyDecimalDigit c = true) ∧
        s.getLastD ' ' = '\n') →
      valid_iranian_national_code s = some false) ∧
    (∀ s : Str, s.length = 11 → (∀ c ∈ s.take 10, isPyDecimalDigit c = true) →
      s.getLastD ' ' = '\n' → valid_iranian_national_code s = none) := by
  refine ⟨?_, ?_, ?_⟩
  · intro code h10 hd
    rw [valid_ascii_eq code h10 hd]
    simp only [Option.some.injEq, Bool.and_eq_true, decide_eq_true_eq]
    rw [checksumOk_iff_claimChecksum]
  · intro s h1 h2
    cases hm : nationalCodeReMatch s with
    | false => exact valid_no_match s hm
    | true =>
      exfalso
      unfold nationalCodeReMatch at hm
      simp only [Bool.or_eq_true, Bool.and_eq_true, decide_eq_true_eq,
        List.all_eq_true] at hm
      rcases hm with ⟨ha, hb⟩ | ⟨⟨ha, hb⟩, hc⟩
      · exact h1 ⟨ha, hb⟩
      · exact h2 ⟨ha, hb, hc⟩
  · intro s h11 hdig hlast
    have hne : s ≠ [] := by
      intro hnil
      rw [hnil] at h11
      cases h11
    have hnl : '\n' ∈ s := by
      have := getLastD_mem s hne ' '
      rw [hlast] at this
      exact this
    have hnldig : isPyDecimalDigit '\n' = false := by decide
    have hmatch : nationalCodeReMatch s = true := by
      unfold nationalCodeReMatch
      simp only [Bool.or_eq_true, Bool.and_eq_true, decide_eq_true_eq,
        List.all_eq_true]
      exact Or.inr ⟨⟨h11, hdig⟩, hlast⟩
    have hnotall : s.all isPyDecimalDigit = false := by
      rw [Bool.eq_false_iff]
      intro hall
      have := List.all_eq_true.mp hall '\n' hnl
      rw [hnldig] at this
      cases this
    have hdedup : s.dedup.length ≠ 1 := by
      intro hded
      have hsame := (dedup_length_one_iff s hne).mp hded
      obtain ⟨a, t, hat⟩ : ∃ a t, s = a :: t := by
        cases s with
        | nil => exact absurd rfl hne
        | cons a t => exact ⟨a, t, rfl⟩
      have hahead : a ∈ s.take 10 := by
        rw [hat]
        rw [List.take_cons (by omega : 0 < 10)]
        exact List.mem_cons_self a _
      have hadig := hdig a hahead
      have haeq : a = '\n' := hsame a (by rw [hat]; exact List.mem_cons_self a t) '\n' hnl
      rw [haeq, hnldig] at hadig
      cases hadig
    unfold valid_iranian_national_code
    rw [hmatch, hnotall]
    simp only [Bool.not_true, Bool.false_eq_true, if_false, hdedup,
      Bool.not_false, if_true]

/-- Counterexample to C1 as stated: a code written with Persian digits is
not ten ASCII digits, yet the validator returns true for it (the regex
digit class and int() are Unicode-aware). -/
theorem C1_counterexample :
    ((str "۱۲۳۴۵۶۷۸۹۱").all Char.isDigit = false) ∧
    valid_iranian_national_code (str "۱۲۳۴۵۶۷۸۹۱") = some true := by
  refine ⟨by decide, by decide⟩

/-- Witness for C1 at concrete inputs. -/
theorem C1_witness :
    valid_iranian_national_code (str "1234567891") = some true ∧
    valid_iranian_national_code (str "abcdefghij") = some false ∧
    valid_iranian_national_code (str "0123456789\n") = none :=
  ⟨(C1_checksum_validation.1 (str "1234567891") (by decide)
      (by decide)).mpr ⟨by decide, by unfold claimChecksum; decide⟩,
   C1_checksum_validation.2.1 (str "abcdefghij") (by decide) (by decide),
   C1_checksum_validation.2.2 (str "0123456789\n") (by decide) (by decide)
     (by decide)⟩

/-- C9 (amended): the validator performs no glyph normalization, but none
is needed for acceptance: the digit class it matches and the digit values
it sums are the Unicode ones, so a checksum-passing code written with
Persian digits is accepted without any prior translation, while a string
whose length is not 10 or containing a non-decimal-digit character never
validates true. -/
theorem C9_no_normalization_needed :
    (∀ s : Str, (s.length ≠ 10 ∨ ∃ c ∈ s, isPyDecimalDigit c = false) →
      valid_iranian_national_code s ≠ some true) ∧
    valid_iranian_national_code (str "۰۱۲۳۴۵۶۷۸۹") = some true ∧
    persian_to_english_number (str "۰۱۲۳۴۵۶۷۸۹") = str "0123456789" ∧
    valid_iranian_national_code (str "0123456789") = some true := by
  refine ⟨?_, by decide, by decide, by decide⟩
  intro s h hcontra
  obtain ⟨h10, hall⟩ := valid_true_shape hcontra
  rcases h with hlen | ⟨c, hc, hcd⟩
  · exact hlen h10
  · rw [hall c hc] at hcd
    cases hcd

/-- Counterexample to C9 as stated: a Persian-digit code contains
characters other than ASCII 0-9, yet the validator accepts it without the
caller applying any digit translation first. -/
theorem C9_counterexample :
    (∃ c ∈ str "۰۱۲۳۴۵۶۷۸۹", c.isDigit = false) ∧
    valid_iranian_national_code (str "۰۱۲۳۴۵۶۷۸۹") = some true := by
  refine ⟨⟨'۰', by decide, by decide⟩, by decide⟩

/-- Witness for C9 at a concrete input. -/
theorem C9_witness : valid_iranian_national_code (str "abc") ≠ some true :=
  C9_no_normalization_needed.1 (str "abc") (Or.inl (by decide))
